import Mathlib

/-!
# Verification of the muviz audio-visualization core

Shallow embedding of the `muviz` repository (audio feature extraction,
visualizer state machines, frame sequencing, video-writer dispatch) and
proofs about the frozen specification claims.

Conventions of the embedding:
* Python floats are modelled as exact reals (`ℝ`); audio sample values,
  which only flow through arithmetic that the claims evaluate concretely,
  are carried as rationals (`ℚ`) and cast to `ℝ` where the source mixes
  them with transcendental functions.
* Python `int(x)` (truncation toward zero) is `pyIntR` / `pyIntQ`.
* `numpy` arrays are Lean lists; `a[i:j]` is `(a.drop i).take (j - i)`.
* Code that can raise (`np` broadcasting in `get_spectrum`, the empty-frame
  check in `VideoWriter.write_video`) is modelled with `Option` / a result
  inductive.
* `random.random()` / `random.randint` draws are modelled as explicit
  input streams `randF : ℕ → ℝ`, `randI : ℕ → ℤ` consumed in call order.
-/

namespace Muviz

/-- Python `int(x)` for a real `x`: truncation toward zero. -/
noncomputable def pyIntR (x : ℝ) : ℤ := if x < 0 then -⌊-x⌋ else ⌊x⌋

/-- Python `int(x)` for a rational `x`: truncation toward zero. -/
def pyIntQ (x : ℚ) : ℤ := if x < 0 then -⌊-x⌋ else ⌊x⌋

/-! ## `muviz/config/settings.py` -/

/-- The visualizer style names recognized by the configuration surface. -/
inductive Style where
  | geometric
  | particle
  | abstract
deriving DecidableEq

/-- The theme names of the `THEMES` table. -/
inductive ThemeName where
  | cosmic
  | neon
  | pastel
deriving DecidableEq

/-- `VisualizerConfig` dataclass. -/
structure VisualizerConfig where
  width : ℕ := 1920
  height : ℕ := 1080
  fps : ℕ := 30
  style : Style := .geometric
  theme : ThemeName := .cosmic
  sample_rate : ℕ := 22050

/-- One entry of the `THEMES` color table: four RGB triples. -/
structure Theme where
  background : ℤ × ℤ × ℤ
  low_freq : ℤ × ℤ × ℤ
  mid_freq : ℤ × ℤ × ℤ
  high_freq : ℤ × ℤ × ℤ

/-- The `THEMES` lookup table (`get_theme_colors`; the unknown-name
fallback to `"cosmic"` is unreachable for the enumerated names). -/
def get_theme_colors : ThemeName → Theme
  | .cosmic => ⟨(10, 10, 30), (255, 100, 50), (150, 50, 200), (50, 150, 255)⟩
  | .neon => ⟨(0, 0, 0), (255, 0, 128), (0, 255, 128), (0, 128, 255)⟩
  | .pastel => ⟨(250, 245, 240), (255, 182, 193), (173, 216, 230), (144, 238, 144)⟩

/-! ## `muviz/audio/analyzer.py` -/

/-- `AudioAnalyzer` state: extraction parameters plus the loaded sample
buffer (`self.audio` is `None` until `load_audio` runs).  `duration` is
derived (`len(self.audio) / self.sample_rate`) rather than stored. -/
structure AudioAnalyzer where
  sample_rate : ℕ := 22050
  hop_length : ℕ := 512
  n_fft : ℕ := 2048
  audio : Option (List ℚ) := none

/-- `self.duration = len(self.audio) / self.sample_rate` (0 before load). -/
def AudioAnalyzer.duration (a : AudioAnalyzer) : ℚ :=
  match a.audio with
  | none => 0
  | some audio => (audio.length : ℚ) / a.sample_rate

/-- `int(frame_idx * samples_per_frame)` with
`samples_per_frame = sample_rate / fps`: since everything is non-negative
this is the natural-number quotient `frame_idx * sample_rate / fps`. -/
def startSample (a : AudioAnalyzer) (frame_idx fps : ℕ) : ℕ :=
  frame_idx * a.sample_rate / fps

/-- `np.hanning M`: `0.5 - 0.5*cos(2*pi*k/(M-1))` for `k = 0..M-1`
(the `M = 1` numpy special case `[1.]` is outside every claim's use). -/
noncomputable def hanning (M : ℕ) : List ℝ :=
  (List.range M).map fun k : ℕ =>
    0.5 - 0.5 * Real.cos (2 * Real.pi * (k : ℝ) / ((M : ℝ) - 1))

/-- Magnitudes of `np.fft.rfft x`: `|Σ_j x_j · exp(-2πi·j·k/n)|` for
`k = 0..n/2`, `n = x.length`. -/
noncomputable def rfftMag (x : List ℝ) : List ℝ :=
  (List.range (x.length / 2 + 1)).map fun k : ℕ =>
    Complex.abs (∑ j ∈ Finset.range x.length,
      ((x.getD j 0 : ℝ) : ℂ) *
        Complex.exp (((-2 * Real.pi * (j : ℝ) * (k : ℝ) / (x.length : ℝ) : ℝ) : ℂ) * Complex.I))

/-- `AudioAnalyzer.get_spectrum`.  The result is `none` exactly when the
source raises: `frame * np.hanning(n_fft)` is a numpy broadcast of two
1-D arrays, which is a `ValueError` unless the lengths agree (the frame,
of length up to `int(sample_rate/fps)`, can exceed `n_fft`, in which case
it is not padded and the shapes differ). -/
noncomputable def AudioAnalyzer.get_spectrum (a : AudioAnalyzer) (frame_idx fps : ℕ) :
    Option (List ℝ) :=
  match a.audio with
  | none => some (List.replicate (a.n_fft / 2 + 1) 0)
  | some audio =>
    let start_sample := startSample a frame_idx fps
    let end_sample := min (start_sample + a.sample_rate / fps) audio.length
    if audio.length ≤ start_sample then some (List.replicate (a.n_fft / 2 + 1) 0)
    else
      let frame := (audio.drop start_sample).take (end_sample - start_sample)
      let padded :=
        if frame.length < a.n_fft then frame ++ List.replicate (a.n_fft - frame.length) 0
        else frame
      if padded.length = a.n_fft then
        some (rfftMag (List.zipWith (fun s w => s * w)
          (padded.map fun s : ℚ => (s : ℝ)) (hanning a.n_fft)))
      else none

/-- `AudioAnalyzer.get_waveform`. -/
def AudioAnalyzer.get_waveform (a : AudioAnalyzer) (frame_idx fps : ℕ)
    (num_samples : ℕ := 1024) : List ℚ :=
  match a.audio with
  | none => List.replicate num_samples 0
  | some audio =>
    let start_sample := startSample a frame_idx fps
    let end_sample := start_sample + num_samples
    if audio.length ≤ start_sample then List.replicate num_samples 0
    else
      let waveform := (audio.drop start_sample).take (min end_sample audio.length - start_sample)
      if waveform.length < num_samples then
        waveform ++ List.replicate (num_samples - waveform.length) 0
      else waveform

/-- `AudioAnalyzer.get_rms_energy`: `min(sqrt(mean(frame**2)) * 5, 1)`. -/
noncomputable def AudioAnalyzer.get_rms_energy (a : AudioAnalyzer) (frame_idx fps : ℕ) : ℝ :=
  match a.audio with
  | none => 0
  | some audio =>
    let start_sample := startSample a frame_idx fps
    let end_sample := min (start_sample + a.sample_rate / fps) audio.length
    if audio.length ≤ start_sample then 0
    else
      let frame := (audio.drop start_sample).take (end_sample - start_sample)
      let rms := Real.sqrt ((frame.map fun s : ℚ => ((s : ℝ)) ^ 2).sum / (frame.length : ℝ))
      min (rms * 5) 1

/-- `np.mean` of a list of reals (the empty-list case, `NaN` under numpy,
is never reached by the proofs below, which keep every averaged slice
nonempty). -/
noncomputable def npMean (l : List ℝ) : ℝ := l.sum / (l.length : ℝ)

/-- `AudioAnalyzer.get_frequency_bands`; `none` propagates a
`get_spectrum` failure. -/
noncomputable def AudioAnalyzer.get_frequency_bands (a : AudioAnalyzer) (frame_idx fps : ℕ) :
    Option (ℝ × ℝ × ℝ) :=
  match a.get_spectrum frame_idx fps with
  | none => none
  | some spectrum =>
    let n := spectrum.length
    if n = 0 then some (0, 0, 0)
    else
      let low_end := n / 3
      let mid_end := 2 * n / 3
      let low := npMean (spectrum.take low_end)
      let mid := npMean ((spectrum.drop low_end).take (mid_end - low_end))
      let high := npMean (spectrum.drop mid_end)
      let max_val := max low (max mid (max high 1e-10))
      some (low / max_val, mid / max_val, high / max_val)

/-! ## Drawing surface

PIL drawing primitives are modelled as an inductive of draw commands; a
rendered image is the ordered list of commands issued while drawing it. -/

/-- One PIL draw call (`draw.rectangle`, `draw.ellipse`, `draw.polygon`,
`draw.line`).  Bounding boxes are `(x1, y1, x2, y2)`. -/
inductive DrawCmd where
  | rect (x1 y1 x2 y2 : ℝ) (fill : ℤ × ℤ × ℤ)
  | ellipseOutline (x1 y1 x2 y2 : ℝ) (outline : ℤ × ℤ × ℤ) (width : ℤ)
  | ellipseFill (x1 y1 x2 y2 : ℝ) (fill : ℤ × ℤ × ℤ)
  | polygonOutline (points : List (ℝ × ℝ)) (outline : ℤ × ℤ × ℤ) (width : ℤ)
  | line (points : List (ℝ × ℝ)) (color : ℤ × ℤ × ℤ) (width : ℤ)

/-- A rendered frame: the ordered draw-command list. -/
abbrev Frame := List DrawCmd

/-- Classifies a draw command by constructor (0 = rect, 1 = ellipse
outline, 2 = ellipse fill, 3 = polygon outline, 4 = line). -/
def cmdKind : DrawCmd → ℕ
  | .rect _ _ _ _ _ => 0
  | .ellipseOutline _ _ _ _ _ _ => 1
  | .ellipseFill _ _ _ _ _ => 2
  | .polygonOutline _ _ _ => 3
  | .line _ _ _ => 4

/-- The stroke width of a draw command (0 for filled primitives). -/
def cmdWidth : DrawCmd → ℤ
  | .rect _ _ _ _ _ => 0
  | .ellipseOutline _ _ _ _ _ w => w
  | .ellipseFill _ _ _ _ _ => 0
  | .polygonOutline _ _ w => w
  | .line _ _ w => w

/-! ## `muviz/visualizer/base.py` -/

/-- The three frequency-band selectors accepted by `get_color`. -/
inductive Band where
  | low
  | mid
  | high

/-- `BaseVisualizer.get_color`: scale the theme's band color by
`0.3 + 0.7 * intensity`, truncating each channel to an int. -/
noncomputable def get_color (t : Theme) (freq_band : Band) (intensity : ℝ) : ℤ × ℤ × ℤ :=
  let base :=
    match freq_band with
    | .low => t.low_freq
    | .mid => t.mid_freq
    | .high => t.high_freq
  (pyIntR ((base.1 : ℝ) * (0.3 + 0.7 * intensity)),
   pyIntR ((base.2.1 : ℝ) * (0.3 + 0.7 * intensity)),
   pyIntR ((base.2.2 : ℝ) * (0.3 + 0.7 * intensity)))

/-- The per-frame feature dictionary built by
`FrameGenerator._get_audio_data` (all four keys are always present on the
rendering path, so the `dict.get` defaults in the visualizers are dead). -/
structure AudioData where
  rms : ℝ
  spectrum : List ℝ
  waveform : List ℚ
  frequency_bands : ℝ × ℝ × ℝ

/-! ## `muviz/visualizer/geometric.py` -/

/-- `GeometricVisualizer._draw_circles`: one outlined circle per band,
skipped when its radius is not `> 10`. -/
noncomputable def draw_circles (cfg : VisualizerConfig) (low mid high rms : ℝ) : List DrawCmd :=
  let t := get_theme_colors cfg.theme
  let center_x := cfg.width / 2
  let center_y := cfg.height / 2
  let max_radius := min cfg.width cfg.height / 3
  let items : List (ℝ × (ℤ × ℤ × ℤ)) :=
    [((max_radius : ℝ) * (0.3 + 0.4 * low), get_color t .low low),
     ((max_radius : ℝ) * (0.4 + 0.3 * mid), get_color t .mid mid),
     ((max_radius : ℝ) * (0.5 + 0.3 * high), get_color t .high high)]
  items.filterMap fun rc =>
    if 10 < rc.1 then
      some (.ellipseOutline ((center_x : ℝ) - rc.1) ((center_y : ℝ) - rc.1)
        ((center_x : ℝ) + rc.1) ((center_y : ℝ) + rc.1) rc.2 (max 1 (pyIntR (rms * 8))))
    else none

/-- `GeometricVisualizer._draw_polygon`: the rotating hexagon. -/
noncomputable def draw_polygon (cfg : VisualizerConfig) (frame_idx : ℕ) (mid rms : ℝ) :
    List DrawCmd :=
  let t := get_theme_colors cfg.theme
  let center_x := cfg.width / 2
  let center_y := cfg.height / 2
  let sides : ℕ := 6
  let base_radius := 50 + rms * 100
  let points := (List.range sides).map fun i : ℕ =>
    let angle := 2 * Real.pi * (i : ℝ) / (sides : ℝ) + (frame_idx : ℝ) * 0.02
    ((center_x : ℝ) + base_radius * Real.cos angle,
     (center_y : ℝ) + base_radius * Real.sin angle)
  [.polygonOutline points (get_color t .mid mid) 3]

/-- `GeometricVisualizer._draw_radiating_lines`. -/
noncomputable def draw_radiating_lines (cfg : VisualizerConfig) (frame_idx : ℕ)
    (high rms : ℝ) : List DrawCmd :=
  let t := get_theme_colors cfg.theme
  let center_x := cfg.width / 2
  let center_y := cfg.height / 2
  let max_radius := min cfg.width cfg.height / 3
  let num_lines : ℕ := 12
  let inner_radius := (max_radius : ℝ) * 0.6
  let outer_radius := (max_radius : ℝ) * (0.8 + high * 0.4)
  (List.range num_lines).map fun i : ℕ =>
    let angle := 2 * Real.pi * (i : ℝ) / (num_lines : ℝ) + (frame_idx : ℝ) * 0.01
    .line [((center_x : ℝ) + inner_radius * Real.cos angle,
            (center_y : ℝ) + inner_radius * Real.sin angle),
           ((center_x : ℝ) + outer_radius * Real.cos angle,
            (center_y : ℝ) + outer_radius * Real.sin angle)]
      (get_color t .high high) (max 1 (pyIntR (high * 4)))

/-- The drawing part of `GeometricVisualizer.render_frame` given the
visualizer's current `frame_idx`. -/
noncomputable def render_geometric (cfg : VisualizerConfig) (frame_idx : ℕ) (d : AudioData) :
    Frame :=
  let bg := (get_theme_colors cfg.theme).background
  DrawCmd.rect 0 0 (cfg.width : ℝ) (cfg.height : ℝ) bg ::
    (draw_circles cfg d.frequency_bands.1 d.frequency_bands.2.1 d.frequency_bands.2.2 d.rms ++
     draw_polygon cfg frame_idx d.frequency_bands.2.1 d.rms ++
     draw_radiating_lines cfg frame_idx d.frequency_bands.2.2 d.rms)

/-- `GeometricVisualizer` mutable state: just the inherited `frame_idx`. -/
structure GeoState where
  frame_idx : ℕ := 0

/-- `GeometricVisualizer.render_frame`: draw, then `advance_frame`. -/
noncomputable def geo_render_frame (cfg : VisualizerConfig) (d : AudioData) (s : GeoState) :
    Frame × GeoState :=
  (render_geometric cfg s.frame_idx d, ⟨s.frame_idx + 1⟩)

/-! ## `muviz/visualizer/particle.py` -/

/-- A `Particle` record.  `life` is initialised to `1.0` by the
constructor and only ever changed by the `-= 0.02` update, so its value
is always a dyadic rational; it is carried as `ℚ` (the `life > 0` filter
is then decidable), while positions and velocities stay in `ℝ`. -/
structure Particle where
  x : ℝ
  y : ℝ
  vx : ℝ
  vy : ℝ
  color : ℤ × ℤ × ℤ
  size : ℤ
  life : ℚ := 1

/-- `ParticleVisualizer` mutable state (`self.max_particles = 200` is a
constant and is inlined below). -/
structure PState where
  frame_idx : ℕ := 0
  particles : List Particle := []

/-- The loop body of `ParticleVisualizer._spawn_particles`: spawn up to
`fuel` more particles, breaking once 200 are live.  `k` indexes the next
unconsumed random draw (five draws per spawned particle: color selector,
angle, size, x-spread, y-spread). -/
noncomputable def spawn_loop (cfg : VisualizerConfig) (low mid high rms : ℝ)
    (randF : ℕ → ℝ) (randI : ℕ → ℤ) : ℕ → ℕ → List Particle → List Particle
  | _, 0, particles => particles
  | k, fuel + 1, particles =>
    if 200 ≤ particles.length then particles
    else
      let t := get_theme_colors cfg.theme
      let rand := randF k
      let color :=
        if rand < 0.33 then get_color t .low low
        else if rand < 0.66 then get_color t .mid mid
        else get_color t .high high
      let speed := (mid + 0.2) * 5
      let angle := randF (k + 1) * (2 * Real.pi)
      let vx := Real.cos angle * speed
      let vy := Real.sin angle * speed
      -- random.randint(2, 6 + int(rms * 6)) modelled as 2 + draw mod span
      let size : ℤ := 2 + (randI (k + 2)).natAbs % (5 + (pyIntR (rms * 6)).toNat)
      let spread : ℝ := 50
      let x := ((cfg.width / 2 : ℕ) : ℝ) + (-spread + randF (k + 3) * (2 * spread))
      let y := ((cfg.height / 2 : ℕ) : ℝ) + (-spread + randF (k + 4) * (2 * spread))
      spawn_loop cfg low mid high rms randF randI (k + 5) fuel
        (particles ++ [⟨x, y, vx, vy, color, size, 1⟩])

/-- `ParticleVisualizer._spawn_particles`: `int(rms*10) + 2` spawn
attempts, capacity-capped at 200. -/
noncomputable def spawn_particles (cfg : VisualizerConfig) (particles : List Particle)
    (rms low mid high : ℝ) (randF : ℕ → ℝ) (randI : ℕ → ℤ) : List Particle :=
  let num_to_spawn := (pyIntR (rms * 10)).toNat + 2
  spawn_loop cfg low mid high rms randF randI 0 num_to_spawn particles

/-- `ParticleVisualizer._update_particles`: move, decay life by `0.02`,
damp velocity by `0.98`, then drop particles with `life ≤ 0`. -/
noncomputable def update_particles (particles : List Particle) : List Particle :=
  (particles.map fun p =>
    { p with
      x := p.x + p.vx
      y := p.y + p.vy
      life := p.life - 0.02
      vx := p.vx * 0.98
      vy := p.vy * 0.98 }).filter fun p => 0 < p.life

/-- `ParticleVisualizer._draw_particles`: one filled disk per live
particle, size scaled by life (floored at 1), color channels scaled by
life. -/
noncomputable def draw_particles (particles : List Particle) : List DrawCmd :=
  particles.filterMap fun p =>
    if 0 < p.life then
      let size := max 1 (pyIntQ ((p.size : ℚ) * p.life))
      let x := pyIntR p.x
      let y := pyIntR p.y
      let color := (pyIntQ ((p.color.1 : ℚ) * p.life), pyIntQ ((p.color.2.1 : ℚ) * p.life),
        pyIntQ ((p.color.2.2 : ℚ) * p.life))
      some (.ellipseFill ((x : ℝ) - (size : ℝ)) ((y : ℝ) - (size : ℝ))
        ((x : ℝ) + (size : ℝ)) ((y : ℝ) + (size : ℝ)) color)
    else none

/-- `ParticleVisualizer.render_frame`: background, spawn, update, draw,
`advance_frame`. -/
noncomputable def particle_render_frame (cfg : VisualizerConfig) (d : AudioData)
    (randF : ℕ → ℝ) (randI : ℕ → ℤ) (s : PState) : Frame × PState :=
  let bg := (get_theme_colors cfg.theme).background
  let ps1 := spawn_particles cfg s.particles d.rms d.frequency_bands.1 d.frequency_bands.2.1
    d.frequency_bands.2.2 randF randI
  let ps2 := update_particles ps1
  (DrawCmd.rect 0 0 (cfg.width : ℝ) (cfg.height : ℝ) bg :: draw_particles ps2,
   ⟨s.frame_idx + 1, ps2⟩)

/-! ## `muviz/visualizer/abstract.py` -/

/-- `AbstractVisualizer` mutable state (`self.max_history = 100` is a
constant and is inlined below). -/
structure AState where
  frame_idx : ℕ := 0
  waveform_history : List (List ℚ) := []

/-- `AbstractVisualizer._draw_flowing_waveform`: append the waveform to
the history (evicting the oldest snapshot past 100), then draw one
polyline per retained snapshot.  Returns the issued commands and the
updated history. -/
noncomputable def draw_flowing_waveform (cfg : VisualizerConfig) (history : List (List ℚ))
    (waveform : List ℚ) (rms : ℝ) : List DrawCmd × List (List ℚ) :=
  if waveform.length < 2 then ([], history)
  else
    let t := get_theme_colors cfg.theme
    let h1 := history ++ [waveform]
    let h2 := if 100 < h1.length then h1.drop 1 else h1
    let cmds := (List.range h2.length).filterMap fun i : ℕ =>
      let wf := h2.getD i []
      let alpha := ((i : ℝ) + 1) / (h2.length : ℝ)
      let y_offset := cfg.height / 2
      let scale := cfg.height / 4
      let step := max 1 (wf.length / cfg.width)
      let bound := min wf.length cfg.width
      -- `range(0, bound, step)` has `⌈bound/step⌉` iterations
      let points := (List.range ((bound + step - 1) / step)).map fun j : ℕ =>
        let x := j * step
        let idx := x * wf.length / cfg.width
        ((x : ℝ), ((y_offset : ℕ) : ℝ) + (pyIntR ((wf.getD idx 0 : ℝ) * (scale : ℝ) * (0.5 + rms)) : ℝ))
      if 1 < points.length then
        let c0 := get_color t .mid (alpha * rms)
        some (.line points
          (pyIntR ((c0.1 : ℝ) * alpha), pyIntR ((c0.2.1 : ℝ) * alpha),
           pyIntR ((c0.2.2 : ℝ) * alpha)) 2)
      else none
    (cmds, h2)

/-- `AbstractVisualizer._draw_frequency_bars`: up to 32 vertical bars
over the lowest quarter of the spectrum (the `break` on an out-of-range
index is equivalent to skipping, since `i * step` is increasing). -/
noncomputable def draw_frequency_bars (cfg : VisualizerConfig) (spectrum : List ℝ)
    (intensity : ℝ) : List DrawCmd :=
  if spectrum.length < 2 then []
  else
    let t := get_theme_colors cfg.theme
    let num_bars : ℕ := 32
    let bar_width := cfg.width / num_bars
    let bar_spacing : ℕ := 2
    let spectrum_slice := spectrum.take (spectrum.length / 4)
    let step := max 1 (spectrum_slice.length / num_bars)
    (List.range num_bars).filterMap fun i : ℕ =>
      let idx := i * step
      if spectrum_slice.length ≤ idx then none
      else
        let height0 := pyIntR (spectrum_slice.getD idx 0 / 255 * (cfg.height : ℝ) * 0.7)
        let height := max 5 (min height0 ((cfg.height * 9 / 10 : ℕ) : ℤ))
        let x := i * bar_width
        let y_top := (cfg.height : ℤ) - height
        let color :=
          if i < num_bars / 3 then get_color t .low intensity
          else if i < 2 * num_bars / 3 then get_color t .mid intensity
          else get_color t .high intensity
        some (.rect ((x + bar_spacing : ℕ) : ℝ) ((y_top : ℤ) : ℝ)
          (((x + bar_width : ℕ) : ℝ) - (bar_spacing : ℝ)) ((cfg.height : ℕ) : ℝ) color)

/-- `AbstractVisualizer._draw_circular_aura`: five pulsing ring outlines
plus a filled inner glow. -/
noncomputable def draw_circular_aura (cfg : VisualizerConfig) (frame_idx : ℕ)
    (low mid high : ℝ) : List DrawCmd :=
  let t := get_theme_colors cfg.theme
  let center_x := cfg.width / 2
  let center_y := cfg.height / 2
  let rings := (List.range 5).map fun i : ℕ =>
    let radius : ℤ := 50 + (i : ℤ) * 40 + pyIntR (mid * 30)
    let color := get_color t .mid (mid * (1 - (i : ℝ) * 0.15))
    let pulse := pyIntR (Real.sin ((frame_idx : ℝ) * 0.1 + (i : ℝ)) * 5 * low)
    let r := radius + pulse
    DrawCmd.ellipseOutline ((center_x : ℝ) - (r : ℝ)) ((center_y : ℝ) - (r : ℝ))
      ((center_x : ℝ) + (r : ℝ)) ((center_y : ℝ) + (r : ℝ)) color 2
  let glow_radius : ℤ := 30 + pyIntR (high * 40)
  rings ++
    [DrawCmd.ellipseFill ((center_x : ℝ) - (glow_radius : ℝ)) ((center_y : ℝ) - (glow_radius : ℝ))
      ((center_x : ℝ) + (glow_radius : ℝ)) ((center_y : ℝ) + (glow_radius : ℝ))
      (get_color t .high high)]

/-- `AbstractVisualizer.render_frame`: background, flowing waveform
(which mutates the history), frequency bars, aura, `advance_frame`. -/
noncomputable def abstract_render_frame (cfg : VisualizerConfig) (d : AudioData) (s : AState) :
    Frame × AState :=
  let bg := (get_theme_colors cfg.theme).background
  let wfres := draw_flowing_waveform cfg s.waveform_history d.waveform d.rms
  (DrawCmd.rect 0 0 (cfg.width : ℝ) (cfg.height : ℝ) bg ::
     (wfres.1 ++ draw_frequency_bars cfg d.spectrum d.frequency_bands.2.1 ++
      draw_circular_aura cfg s.frame_idx d.frequency_bands.1 d.frequency_bands.2.1
        d.frequency_bands.2.2),
   ⟨s.frame_idx + 1, wfres.2⟩)

/-! ## Visualizer runs

A run feeds a fresh visualizer (state `frame_idx = 0`, empty history /
particle list) one feature snapshot per frame, in order, exactly as
`FrameGenerator.generate_frames` does. -/

/-- A geometric run over a list of snapshots (state after the run). -/
noncomputable def geo_run (cfg : VisualizerConfig) (ds : List AudioData) : GeoState :=
  ds.foldl (fun s d => (geo_render_frame cfg d s).2) {}

/-- A particle run: each frame carries its snapshot and the random
streams the spawner consumes that frame. -/
noncomputable def particle_run (cfg : VisualizerConfig)
    (ds : List (AudioData × (ℕ → ℝ) × (ℕ → ℤ))) : PState :=
  ds.foldl (fun s d => (particle_render_frame cfg d.1 d.2.1 d.2.2 s).2) {}

/-- An abstract run over a list of snapshots (state after the run). -/
noncomputable def abstract_run (cfg : VisualizerConfig) (ds : List AudioData) : AState :=
  ds.foldl (fun s d => (abstract_render_frame cfg d s).2) {}

/-! ## `muviz/renderer/frame_generator.py` -/

/-- `FrameGenerator._get_audio_data`; `none` propagates a raised
`get_spectrum` broadcast error. -/
noncomputable def get_audio_data (an : AudioAnalyzer) (frame_idx fps : ℕ) : Option AudioData :=
  match an.get_spectrum frame_idx fps, an.get_frequency_bands frame_idx fps with
  | some sp, some fb =>
    some ⟨an.get_rms_energy frame_idx fps, sp, an.get_waveform frame_idx fps 1024, fb⟩
  | _, _ => none

/-- The frame loop of `FrameGenerator.generate_frames` for the geometric
style: `fuel` frames remaining, visualizer state `s` (whose `frame_idx`
the loop keeps in lock-step with the loop counter, since the generator
renders every index exactly once in order). -/
noncomputable def generate_frames_geo_aux (an : AudioAnalyzer) (cfg : VisualizerConfig) :
    GeoState → ℕ → Option (List Frame)
  | _, 0 => some []
  | s, fuel + 1 =>
    match get_audio_data an s.frame_idx cfg.fps with
    | none => none
    | some d =>
      let r := geo_render_frame cfg d s
      match generate_frames_geo_aux an cfg r.2 fuel with
      | none => none
      | some rest => some (r.1 :: rest)

/-- `FrameGenerator.generate_frames` with a fresh `GeometricVisualizer`:
`num_frames = int(duration * fps)` snapshots rendered in order. -/
noncomputable def generate_frames_geo (an : AudioAnalyzer) (cfg : VisualizerConfig) :
    Option (List Frame) :=
  let num_frames := (pyIntQ (an.duration * (cfg.fps : ℚ))).toNat
  generate_frames_geo_aux an cfg {} num_frames

/-! ## `muviz/renderer/video_writer.py` -/

/-- Outcome of `VideoWriter.write_video`.  Encoding itself is an external
collaborator; only the dispatch (and its order: the empty-frame check
runs first) is modelled. -/
inductive WriteResult where
  | noFramesError
  | encodedWithMoviepy
  | encodedWithCv2
  | noBackendError
deriving DecidableEq

/-- `VideoWriter.write_video`: raise `ValueError` on an empty frame list
before considering any backend, else dispatch to moviepy, then cv2. -/
def write_video (moviepy_available cv2_available : Bool) (frames : List Frame) : WriteResult :=
  if frames.isEmpty then .noFramesError
  else if moviepy_available then .encodedWithMoviepy
  else if cv2_available then .encodedWithCv2
  else .noBackendError

/-! ## Shared helper lemmas -/

/-- The slice taken by `get_waveform` in its in-range branch never holds
more than `num_samples` elements. -/
lemma waveform_slice_length_le (audio : List ℚ) (s num : ℕ) :
    ((audio.drop s).take (min (s + num) audio.length - s)).length ≤ num := by
  simp only [List.length_take, List.length_drop]
  omega

end Muviz

namespace Muviz

/-! ## Claim C7: `get_waveform` always returns exactly `num_samples`
elements -/

/-- **C7.** For every frame index, fps and requested length,
`get_waveform` returns exactly `num_samples` elements: all zeros when no
buffer is loaded or `start ≥ bufferLength`, and otherwise the clamped
slice `[start, min(start+numSamples, bufferLength))` zero-padded on the
right. -/
theorem get_waveform_always_num_samples (a : AudioAnalyzer) (frame_idx fps num_samples : ℕ) :
    (a.get_waveform frame_idx fps num_samples).length = num_samples ∧
    ((a.audio = none ∨
        ∃ audio, a.audio = some audio ∧ audio.length ≤ startSample a frame_idx fps) →
      a.get_waveform frame_idx fps num_samples = List.replicate num_samples 0) ∧
    (∀ audio, a.audio = some audio → startSample a frame_idx fps < audio.length →
      a.get_waveform frame_idx fps num_samples =
        (audio.drop (startSample a frame_idx fps)).take
            (min (startSample a frame_idx fps + num_samples) audio.length -
              startSample a frame_idx fps) ++
          List.replicate (num_samples -
            ((audio.drop (startSample a frame_idx fps)).take
              (min (startSample a frame_idx fps + num_samples) audio.length -
                startSample a frame_idx fps)).length) 0) := by
  refine ⟨?_, ?_, ?_⟩
  · cases ha : a.audio with
    | none => simp [AudioAnalyzer.get_waveform, ha]
    | some audio =>
      by_cases hs : audio.length ≤ startSample a frame_idx fps
      · simp [AudioAnalyzer.get_waveform, ha, hs]
      · have hle := waveform_slice_length_le audio (startSample a frame_idx fps) num_samples
        simp only [AudioAnalyzer.get_waveform, ha, if_neg hs]
        split
        · simp only [List.length_append, List.length_replicate]
          omega
        · omega
  · rintro (ha | ⟨audio, ha, hs⟩)
    · simp [AudioAnalyzer.get_waveform, ha]
    · simp [AudioAnalyzer.get_waveform, ha, hs]
  · intro audio ha hs
    have hle := waveform_slice_length_le audio (startSample a frame_idx fps) num_samples
    simp only [AudioAnalyzer.get_waveform, ha, if_neg (not_le.mpr hs)]
    split
    · rfl
    · rename_i hlen
      have : num_samples -
          ((audio.drop (startSample a frame_idx fps)).take
            (min (startSample a frame_idx fps + num_samples) audio.length -
              startSample a frame_idx fps)).length = 0 := by omega
      rw [this]
      simp

/-- Witness for C7 at a concrete input (empty analyzer, so the all-zero
branch applies). -/
theorem get_waveform_always_num_samples_witness :
    (AudioAnalyzer.get_waveform {} 0 30 8).length = 8 ∧
    AudioAnalyzer.get_waveform {} 0 30 8 = List.replicate 8 0 := by
  have h := get_waveform_always_num_samples {} 0 30 8
  exact ⟨h.1, h.2.1 (Or.inl rfl)⟩

/-! ## Claim C1: zero-valued defaults past end-of-buffer -/

/-- The buffer of the C1 counterexample: ten samples of value 1 at
`sample_rate = 30`, queried at `fps = 10`, so `samplesPerFrame = 3` and
`floor(bufferLength / samplesPerFrame) = 3`, yet frame 3 still overlaps
the last buffer sample (`start = 9 < 10`). -/
def analyzerC1 : AudioAnalyzer :=
  { sample_rate := 30, hop_length := 512, n_fft := 4, audio := some (List.replicate 10 1) }

/-- **C1 counterexample.** The claim's premise
`frameIdx ≥ floor(bufferLength / samplesPerFrame)` holds at
`frameIdx = 3` (`⌊10 / (30/10)⌋ = 3`), but `get_waveform` is *not*
all-zero there: the frame still starts inside the buffer
(`start = int(3·3) = 9 < 10`). -/
theorem features_zero_claim_counterexample :
    analyzerC1.audio = some (List.replicate 10 1) ∧
    (⌊((10 : ℚ)) / ((analyzerC1.sample_rate : ℚ) / (10 : ℚ))⌋ : ℤ) ≤ 3 ∧
    analyzerC1.get_waveform 3 10 4 ≠ List.replicate 4 0 := by
  refine ⟨rfl, by norm_num [analyzerC1], ?_⟩
  decide

/-- **C1 (amended).** With the boundary corrected from
`frameIdx ≥ floor(bufferLength/samplesPerFrame)` to
`start = int(frameIdx · samplesPerFrame) ≥ bufferLength` (equivalently
`frameIdx ≥ ceil(bufferLength/samplesPerFrame)`), and whenever no buffer
is loaded, `rmsEnergy`, `spectrum` and `waveform` all return their
all-zero defaults and none of them raises. -/
theorem features_zero_past_end (a : AudioAnalyzer) (frame_idx fps num_samples : ℕ)
    (h : ∀ audio, a.audio = some audio → audio.length ≤ startSample a frame_idx fps) :
    a.get_rms_energy frame_idx fps = 0 ∧
    a.get_spectrum frame_idx fps = some (List.replicate (a.n_fft / 2 + 1) 0) ∧
    a.get_waveform frame_idx fps num_samples = List.replicate num_samples 0 := by
  cases ha : a.audio with
  | none =>
    exact ⟨by simp [AudioAnalyzer.get_rms_energy, ha],
      by simp [AudioAnalyzer.get_spectrum, ha],
      by simp [AudioAnalyzer.get_waveform, ha]⟩
  | some audio =>
    have hs := h audio ha
    exact ⟨by simp [AudioAnalyzer.get_rms_energy, ha, hs],
      by simp [AudioAnalyzer.get_spectrum, ha, hs],
      by simp [AudioAnalyzer.get_waveform, ha, hs]⟩

/-- Witness for the amended C1: two samples at `sample_rate = 2`,
`fps = 1`, frame 1 starts at sample 2 = bufferLength. -/
theorem features_zero_past_end_witness :
    (∀ audio, (AudioAnalyzer.mk 2 512 4 (some [1, 1])).audio = some audio →
      audio.length ≤ startSample (AudioAnalyzer.mk 2 512 4 (some [1, 1])) 1 1) ∧
    ((AudioAnalyzer.mk 2 512 4 (some [1, 1])).get_rms_energy 1 1 = 0 ∧
     (AudioAnalyzer.mk 2 512 4 (some [1, 1])).get_spectrum 1 1 = some (List.replicate 3 0) ∧
     (AudioAnalyzer.mk 2 512 4 (some [1, 1])).get_waveform 1 1 7 = List.replicate 7 0) := by
  have hyp : ∀ audio, (AudioAnalyzer.mk 2 512 4 (some [1, 1])).audio = some audio →
      audio.length ≤ startSample (AudioAnalyzer.mk 2 512 4 (some [1, 1])) 1 1 := by
    intro audio ha
    obtain rfl : [(1 : ℚ), 1] = audio := by simpa using ha
    decide
  exact ⟨hyp, features_zero_past_end _ 1 1 7 hyp⟩

/-! ## Claim C10: empty frame sequences fail before encoding -/

/-- **C10.** When zero frames are requested (`int(duration * fps) ≤ 0`,
e.g. a zero-length or negative duration), the generated frame sequence
is empty and `write_video` fails with the no-frames error regardless of
which encoding backends are available — i.e. before any encoding
attempt. -/
theorem write_video_empty_frames (a : AudioAnalyzer) (cfg : VisualizerConfig)
    (moviepy_available cv2_available : Bool)
    (h : (pyIntQ (a.duration * (cfg.fps : ℚ))).toNat = 0) :
    generate_frames_geo a cfg = some [] ∧
    ∀ frames, generate_frames_geo a cfg = some frames →
      write_video moviepy_available cv2_available frames = .noFramesError := by
  have hgen : generate_frames_geo a cfg = some [] := by
    unfold generate_frames_geo
    rw [h]
    rfl
  refine ⟨hgen, fun frames hf => ?_⟩
  rw [hgen] at hf
  obtain rfl : ([] : List Frame) = frames := by simpa using hf
  rfl

/-- Witness for C10: a fresh analyzer (no audio, duration 0) with the
default configuration. -/
theorem write_video_empty_frames_witness :
    (pyIntQ (AudioAnalyzer.duration {} * ((VisualizerConfig.fps {}) : ℚ))).toNat = 0 ∧
    generate_frames_geo {} {} = some [] ∧
    write_video true true [] = .noFramesError := by
  have h : (pyIntQ (AudioAnalyzer.duration {} * ((VisualizerConfig.fps {}) : ℚ))).toNat = 0 := by
    norm_num [AudioAnalyzer.duration, pyIntQ]
  have h2 := write_video_empty_frames {} {} true true h
  exact ⟨h, h2.1, h2.2 [] h2.1⟩

/-! ## Claim C4: particle lifecycle invariants -/

/-- The particle invariant: at most 200 live particles, every one with
life in `(0, 1]`. -/
def ParticleInv (particles : List Particle) : Prop :=
  particles.length ≤ 200 ∧ ∀ p ∈ particles, 0 < p.life ∧ p.life ≤ 1

lemma spawn_loop_inv (cfg : VisualizerConfig) (low mid high rms : ℝ)
    (randF : ℕ → ℝ) (randI : ℕ → ℤ) :
    ∀ (fuel k : ℕ) (ps : List Particle), ParticleInv ps →
      ParticleInv (spawn_loop cfg low mid high rms randF randI k fuel ps) := by
  intro fuel
  induction fuel with
  | zero => intro k ps h; simpa [spawn_loop] using h
  | succ n ih =>
    intro k ps h
    rw [spawn_loop]
    split
    · exact h
    · rename_i hlt
      apply ih
      constructor
      · simp only [List.length_append, List.length_cons, List.length_nil]
        omega
      · intro p hp
        rcases List.mem_append.mp hp with hp | hp
        · exact h.2 p hp
        · simp only [List.mem_singleton] at hp
          subst hp
          exact ⟨by norm_num, by norm_num⟩

lemma update_particles_inv (ps : List Particle) (h : ParticleInv ps) :
    ParticleInv (update_particles ps) := by
  constructor
  · calc (update_particles ps).length ≤ (ps.map _).length := List.length_filter_le _ _
      _ = ps.length := List.length_map _ _
      _ ≤ 200 := h.1
  · intro p hp
    unfold update_particles at hp
    rw [List.mem_filter] at hp
    obtain ⟨hp, hlife⟩ := hp
    rw [List.mem_map] at hp
    obtain ⟨q, hq, rfl⟩ := hp
    refine ⟨by simpa using hlife, ?_⟩
    have := (h.2 q hq).2
    simp only
    linarith

lemma particle_fold_inv (cfg : VisualizerConfig) :
    ∀ (ds : List (AudioData × (ℕ → ℝ) × (ℕ → ℤ))) (s : PState), ParticleInv s.particles →
      ParticleInv ((ds.foldl (fun s d => (particle_render_frame cfg d.1 d.2.1 d.2.2 s).2)
        s).particles) := by
  intro ds
  induction ds with
  | nil => intro s h; exact h
  | cons d rest ih =>
    intro s h
    apply ih
    simp only [particle_render_frame]
    exact update_particles_inv _ (spawn_loop_inv cfg _ _ _ _ _ _ _ _ _ h)

/-- **C4.** At every point in any run of the particle visualizer (any
snapshot sequence, any random draws), at most 200 particles are live and
every retained particle has `life ∈ (0, 1]`; in particular every
particle whose life dropped to `≤ 0` in the per-frame update has been
removed. -/
theorem particle_invariant (cfg : VisualizerConfig)
    (ds : List (AudioData × (ℕ → ℝ) × (ℕ → ℤ))) :
    (particle_run cfg ds).particles.length ≤ 200 ∧
    ∀ p ∈ (particle_run cfg ds).particles, 0 < p.life ∧ p.life ≤ 1 :=
  particle_fold_inv cfg ds {} ⟨by simp, by simp⟩

/-! ## Claim C5: abstract history buffer is a size-100 FIFO -/

/-- The history update performed by one abstract frame (the mutation
inside `_draw_flowing_waveform`). -/
def hist_step (history : List (List ℚ)) (waveform : List ℚ) : List (List ℚ) :=
  if waveform.length < 2 then history
  else
    let h1 := history ++ [waveform]
    if 100 < h1.length then h1.drop 1 else h1

lemma draw_flowing_waveform_hist (cfg : VisualizerConfig) (history : List (List ℚ))
    (waveform : List ℚ) (rms : ℝ) :
    (draw_flowing_waveform cfg history waveform rms).2 = hist_step history waveform := by
  unfold draw_flowing_waveform hist_step
  split <;> rfl

lemma hist_fold (ws : List (List ℚ)) :
    ∀ history : List (List ℚ), history.length ≤ 100 → (∀ w ∈ ws, 2 ≤ w.length) →
      ws.foldl hist_step history =
        (history ++ ws).drop (history.length + ws.length - 100) := by
  induction ws with
  | nil =>
    intro history hlen _
    simp only [List.foldl_nil, List.length_nil, List.append_nil]
    rw [Nat.sub_eq_zero_of_le (by omega), List.drop_zero]
  | cons w rest ih =>
    intro history hlen hws
    have hw : ¬ w.length < 2 := by
      have := hws w (List.mem_cons_self w rest)
      omega
    simp only [List.foldl_cons]
    have hrest := fun x hx => hws x (List.mem_cons_of_mem w hx)
    by_cases hcap : 100 < (history ++ [w]).length
    · have h100 : history.length = 100 := by
        simp only [List.length_append, List.length_cons, List.length_nil] at hcap
        omega
      have hstep : hist_step history w = (history ++ [w]).drop 1 := by
        simp only [hist_step, if_neg hw, if_pos hcap]
      obtain ⟨a, l', hal⟩ := List.exists_cons_of_ne_nil
        (show history ++ [w] ≠ [] by simp)
      have hl' : l'.length = 100 := by
        have := congrArg List.length hal
        simp only [List.length_append, List.length_cons, List.length_nil, h100] at this
        omega
      rw [hstep, hal, List.drop_succ_cons, List.drop_zero]
      rw [ih l' (le_of_eq hl') hrest]
      have hsplit : history ++ w :: rest = a :: (l' ++ rest) := by
        have : history ++ w :: rest = (history ++ [w]) ++ rest := by simp
        rw [this, hal]
        rfl
      rw [hsplit]
      have hidx : history.length + (w :: rest).length - 100 =
          (l'.length + rest.length - 100) + 1 := by
        simp only [List.length_cons, h100, hl']
        omega
      rw [hidx, List.drop_succ_cons]
    · have hcaple : (history ++ [w]).length ≤ 100 := by
        simp only [List.length_append, List.length_cons, List.length_nil] at hcap ⊢
        omega
      have hstep : hist_step history w = history ++ [w] := by
        simp only [hist_step, if_neg hw, if_neg hcap]
      rw [hstep, ih (history ++ [w]) hcaple hrest]
      congr 1
      · simp only [List.length_append, List.length_cons, List.length_nil]
        omega
      · simp

lemma abstract_fold_hist (cfg : VisualizerConfig) (ds : List AudioData) :
    ∀ s : AState,
      (ds.foldl (fun s d => (abstract_render_frame cfg d s).2) s).waveform_history =
        ds.foldl (fun h d => hist_step h d.waveform) s.waveform_history := by
  induction ds with
  | nil => intro s; rfl
  | cons d rest ih =>
    intro s
    simp only [List.foldl_cons]
    rw [ih]
    congr 1
    simp only [abstract_render_frame]
    exact draw_flowing_waveform_hist cfg s.waveform_history d.waveform d.rms

lemma foldl_hist_step_map (ds : List AudioData) (h : List (List ℚ)) :
    ds.foldl (fun h d => hist_step h d.waveform) h =
      (ds.map AudioData.waveform).foldl hist_step h := by
  induction ds generalizing h with
  | nil => rfl
  | cons d rest ih => simp [List.foldl_cons, ih]

/-- **C5.** In every abstract-visualizer run whose per-frame waveforms
all have at least 2 samples (as every `get_waveform` result of the
rendering pipeline does — see C7), the history after frame `i` is
exactly the last `min(i+1, 100)` waveforms in arrival order: the FIFO of
capacity 100 with the oldest snapshot evicted first. -/
theorem abstract_history_fifo (cfg : VisualizerConfig) (ds : List AudioData)
    (h : ∀ d ∈ ds, 2 ≤ d.waveform.length) :
    (abstract_run cfg ds).waveform_history =
      (ds.map AudioData.waveform).drop (ds.length - 100) ∧
    (abstract_run cfg ds).waveform_history.length = min ds.length 100 := by
  have hmain : (abstract_run cfg ds).waveform_history =
      (ds.map AudioData.waveform).drop (ds.length - 100) := by
    unfold abstract_run
    rw [abstract_fold_hist, foldl_hist_step_map]
    rw [hist_fold (ds.map AudioData.waveform) [] (by simp)
      (by intro w hw; rw [List.mem_map] at hw; obtain ⟨d, hd, rfl⟩ := hw; exact h d hd)]
    simp
  refine ⟨hmain, ?_⟩
  rw [hmain]
  simp only [List.length_drop, List.length_map]
  omega

/-- Witness for C5: three frames of a 2-sample waveform; the history is
all three snapshots. -/
theorem abstract_history_fifo_witness :
    (∀ d ∈ List.replicate 3 (AudioData.mk 0 [] [0, 0] (0, 0, 0)), 2 ≤ d.waveform.length) ∧
    (abstract_run {} (List.replicate 3 (AudioData.mk 0 [] [0, 0] (0, 0, 0)))).waveform_history =
      List.replicate 3 [0, 0] ∧
    (abstract_run {} (List.replicate 3 (AudioData.mk 0 [] [0, 0] (0, 0, 0)))).waveform_history.length = 3 := by
  have hyp : ∀ d ∈ List.replicate 3 (AudioData.mk 0 [] [0, 0] (0, 0, 0)),
      2 ≤ d.waveform.length := by
    intro d hd
    rw [List.eq_of_mem_replicate hd]
    simp
  have h := abstract_history_fifo {} _ hyp
  refine ⟨hyp, ?_, ?_⟩
  · rw [h.1]; rfl
  · rw [h.2]; rfl

/-! ## Claim C2: spectrum shape and non-negativity -/

lemma hanning_length (M : ℕ) : (hanning M).length = M := by
  rw [hanning, List.length_map, List.length_range]

lemma rfftMag_length (x : List ℝ) : (rfftMag x).length = x.length / 2 + 1 := by
  rw [rfftMag, List.length_map, List.length_range]

lemma rfftMag_nonneg (x : List ℝ) : ∀ y ∈ rfftMag x, 0 ≤ y := by
  intro y hy
  simp only [rfftMag, List.mem_map] at hy
  obtain ⟨k, _, rfl⟩ := hy
  exact AbsoluteValue.nonneg _ _

lemma padded_length (frame : List ℚ) (n : ℕ) (h : frame.length ≤ n) :
    (if frame.length < n then frame ++ List.replicate (n - frame.length) (0 : ℚ)
      else frame).length = n := by
  split
  · simp only [List.length_append, List.length_replicate]
    omega
  · omega

/-- Shared shape lemma: whenever `int(sample_rate/fps) ≤ n_fft` (so the
extracted frame can never be longer than the FFT size and the `numpy`
broadcast succeeds), `get_spectrum` returns `some` list of length
`n_fft/2 + 1` whose entries are all non-negative. -/
lemma get_spectrum_spec (a : AudioAnalyzer) (frame_idx fps : ℕ)
    (hfit : a.sample_rate / fps ≤ a.n_fft) :
    ∃ l, a.get_spectrum frame_idx fps = some l ∧
      l.length = a.n_fft / 2 + 1 ∧ ∀ x ∈ l, 0 ≤ x := by
  cases ha : a.audio with
  | none =>
    exact ⟨List.replicate (a.n_fft / 2 + 1) 0, by simp [AudioAnalyzer.get_spectrum, ha],
      by simp, fun x hx => by rw [List.eq_of_mem_replicate hx]⟩
  | some audio =>
    by_cases hs : audio.length ≤ startSample a frame_idx fps
    · exact ⟨List.replicate (a.n_fft / 2 + 1) 0,
        by simp [AudioAnalyzer.get_spectrum, ha, hs],
        by simp, fun x hx => by rw [List.eq_of_mem_replicate hx]⟩
    · have hframe_len : ((audio.drop (startSample a frame_idx fps)).take
          (min (startSample a frame_idx fps + a.sample_rate / fps) audio.length -
            startSample a frame_idx fps)).length ≤ a.n_fft := by
        simp only [List.length_take, List.length_drop]
        omega
      simp only [AudioAnalyzer.get_spectrum, ha]
      rw [if_neg hs, if_pos (padded_length _ a.n_fft hframe_len)]
      refine ⟨_, rfl, ?_, rfftMag_nonneg _⟩
      rw [rfftMag_length, List.length_zipWith, List.length_map, hanning_length,
        padded_length _ a.n_fft hframe_len, min_self]

/-- **C2 (amended).** For every buffer, frame index, and positive fps
with `int(sampleRate/fps) ≤ fftSize`, `spectrum` returns an ordered
sequence of exactly `fftSize/2 + 1` non-negative magnitudes.  (Without
the fps bound the extracted frame can exceed `fftSize` samples, and the
unpadded windowing `frame * np.hanning(fftSize)` raises a broadcast
`ValueError` — see the counterexample.) -/
theorem spectrum_length_and_nonneg (a : AudioAnalyzer) (frame_idx fps : ℕ)
    (hfps : 0 < fps) (hfit : a.sample_rate / fps ≤ a.n_fft) :
    ∃ l, a.get_spectrum frame_idx fps = some l ∧
      l.length = a.n_fft / 2 + 1 ∧ ∀ x ∈ l, 0 ≤ x :=
  get_spectrum_spec a frame_idx fps hfit

/-- Witness for the amended C2: four unit samples at `sample_rate = 4`,
`fps = 2`, `n_fft = 2` (frame of 2 samples, exactly the FFT size). -/
theorem spectrum_length_and_nonneg_witness :
    0 < 2 ∧ (AudioAnalyzer.mk 4 512 2 (some [1, 1, 1, 1])).sample_rate / 2 ≤
      (AudioAnalyzer.mk 4 512 2 (some [1, 1, 1, 1])).n_fft ∧
    ∃ l, (AudioAnalyzer.mk 4 512 2 (some [1, 1, 1, 1])).get_spectrum 0 2 = some l ∧
      l.length = (AudioAnalyzer.mk 4 512 2 (some [1, 1, 1, 1])).n_fft / 2 + 1 ∧
      ∀ x ∈ l, 0 ≤ x :=
  ⟨by decide, by decide,
    spectrum_length_and_nonneg (AudioAnalyzer.mk 4 512 2 (some [1, 1, 1, 1])) 0 2
      (by decide) (by decide)⟩

/-- The C2 counterexample analyzer: `sample_rate = 4`, `fps = 1` gives a
4-sample frame, longer than `n_fft = 2`. -/
def analyzerC2 : AudioAnalyzer :=
  { sample_rate := 4, hop_length := 512, n_fft := 2, audio := some [1, 1, 1, 1] }

/-- **C2 counterexample.** With a loaded buffer, frame index 0 and the
positive fps 1, `get_spectrum` does not return a spectrum at all: the
frame has 4 samples, `n_fft = 2`, no padding happens, and
`frame * np.hanning(2)` raises a shape-mismatch `ValueError` (modelled
as `none`). -/
theorem spectrum_claim_counterexample :
    analyzerC2.audio = some [1, 1, 1, 1] ∧ (0 : ℕ) < 1 ∧
    analyzerC2.get_spectrum 0 1 = none := by
  refine ⟨rfl, Nat.one_pos, ?_⟩
  simp only [AudioAnalyzer.get_spectrum, analyzerC2, startSample]
  norm_num

/-! ## Claim C3: frequency-band normalization -/

lemma npMean_nonneg (l : List ℝ) (h : ∀ x ∈ l, 0 ≤ x) : 0 ≤ npMean l :=
  div_nonneg (List.sum_nonneg h) (Nat.cast_nonneg _)

lemma npMean_replicate_zero (k : ℕ) : npMean (List.replicate k (0 : ℝ)) = 0 := by
  simp [npMean]

lemma all_zero_of_sum_zero (s : List ℝ) (hpos : ∀ x ∈ s, 0 ≤ x) (hsum : s.sum = 0) :
    ∀ x ∈ s, x = 0 := by
  induction s with
  | nil => intro x hx; cases hx
  | cons a t ih =>
    intro x hx
    rw [List.sum_cons] at hsum
    have hta : 0 ≤ t.sum :=
      List.sum_nonneg fun y hy => hpos y (List.mem_cons_of_mem a hy)
    have ha : 0 ≤ a := hpos a (List.mem_cons_self a t)
    rcases List.mem_cons.mp hx with rfl | hx
    · linarith
    · exact ih (fun y hy => hpos y (List.mem_cons_of_mem a hy)) (by linarith) x hx

/-- A nonempty list of non-negative reals whose `np.mean` is zero is
all-zero. -/
lemma all_zero_of_npMean_zero (s : List ℝ) (hpos : ∀ x ∈ s, 0 ≤ x)
    (hne : s.length ≠ 0) (hm : npMean s = 0) : ∀ x ∈ s, x = 0 := by
  apply all_zero_of_sum_zero s hpos
  rw [npMean, div_eq_zero_iff] at hm
  rcases hm with h | h
  · exact h
  · exact absurd h (Nat.cast_ne_zero.mpr hne)

/-- A list is its low/mid/high slices concatenated (the slices used by
`get_frequency_bands`). -/
lemma three_slice_decomp (l : List ℝ) (a b : ℕ) (hab : a ≤ b) :
    l = l.take a ++ ((l.drop a).take (b - a) ++ l.drop b) := by
  have h2 : (l.drop a).drop (b - a) = l.drop b := by
    rw [List.drop_drop]
    congr 1
    omega
  conv_lhs => rw [← List.take_append_drop a l]
  congr 1
  rw [← h2]
  exact (List.take_append_drop _ _).symm

/-- Arithmetic core of `get_frequency_bands`' normalization by
`max(low, mid, high, 1e-10)`: values in `[0,1]`; the maximum is exactly
1 whenever some raw band reaches the `1e-10` floor, and all three stay
below 1 otherwise; a normalized component vanishes exactly when its raw
band does. -/
lemma normalize_bands (low mid high max_val : ℝ)
    (hl : 0 ≤ low) (hm : 0 ≤ mid) (hh : 0 ≤ high)
    (hmv : max_val = max low (max mid (max high 1e-10))) :
    (0 ≤ low / max_val ∧ low / max_val ≤ 1) ∧
    (0 ≤ mid / max_val ∧ mid / max_val ≤ 1) ∧
    (0 ≤ high / max_val ∧ high / max_val ≤ 1) ∧
    (1e-10 ≤ max low (max mid high) →
      max (low / max_val) (max (mid / max_val) (high / max_val)) = 1) ∧
    (max low (max mid high) < 1e-10 →
      low / max_val < 1 ∧ mid / max_val < 1 ∧ high / max_val < 1) ∧
    (low / max_val = 0 ↔ low = 0) ∧
    (mid / max_val = 0 ↔ mid = 0) ∧
    (high / max_val = 0 ↔ high = 0) := by
  have heps : (0 : ℝ) < 1e-10 := by norm_num
  have hmv3 : max_val = max (max low (max mid high)) 1e-10 := by
    rw [hmv, max_assoc, max_assoc]
  have hpos : 0 < max_val := by
    rw [hmv3]
    exact lt_of_lt_of_le heps (le_max_right _ _)
  have hlle : low ≤ max_val := by
    rw [hmv]; exact le_max_left _ _
  have hmle : mid ≤ max_val := by
    rw [hmv]; exact le_trans (le_max_left _ _) (le_max_right _ _)
  have hhle : high ≤ max_val := by
    rw [hmv]
    exact le_trans (le_trans (le_max_left _ _) (le_max_right _ _)) (le_max_right _ _)
  have hdiv0 : ∀ c : ℝ, c / max_val = 0 ↔ c = 0 := by
    intro c
    rw [div_eq_zero_iff]
    exact ⟨fun h => h.resolve_right (ne_of_gt hpos), fun h => Or.inl h⟩
  refine ⟨⟨div_nonneg hl hpos.le, (div_le_one hpos).mpr hlle⟩,
    ⟨div_nonneg hm hpos.le, (div_le_one hpos).mpr hmle⟩,
    ⟨div_nonneg hh hpos.le, (div_le_one hpos).mpr hhle⟩, ?_, ?_,
    hdiv0 low, hdiv0 mid, hdiv0 high⟩
  · intro hbig
    have hm3 : max_val = max low (max mid high) := by
      rw [hmv3, max_eq_left hbig]
    rw [max_div_div_right hpos.le, max_div_div_right hpos.le, ← hm3,
      div_self (ne_of_gt hpos)]
  · intro hbig
    have hmax : max_val = 1e-10 := by
      rw [hmv3, max_eq_right hbig.le]
    refine ⟨(div_lt_one hpos).mpr ?_, (div_lt_one hpos).mpr ?_, (div_lt_one hpos).mpr ?_⟩
    · rw [hmax]
      exact lt_of_le_of_lt (le_max_left _ _) hbig
    · rw [hmax]
      exact lt_of_le_of_lt (le_trans (le_max_left _ _) (le_max_right _ _)) hbig
    · rw [hmax]
      exact lt_of_le_of_lt (le_trans (le_max_right _ _) (le_max_right _ _)) hbig

/-- **C3 (amended).** For every buffer, frame index, and positive fps
with `int(sampleRate/fps) ≤ fftSize` (so the spectrum computation does
not raise) and `fftSize ≥ 4` (so each third of the spectrum is
nonempty), `frequencyBands` returns a triple of values in `[0, 1]` with:
`max(low, mid, high) = 1.0` whenever some raw band mean reaches the
`1e-10` normalization floor; all three values `< 1` whenever every raw
band mean is below the floor; and the result is `(0, 0, 0)` **exactly**
when the spectrum is all-zero.  (The claim's `(0,0,0)` escape for an
*empty* spectrum is unreachable: the spectrum always has
`fftSize/2 + 1 ≥ 1` entries.) -/
theorem frequency_bands_normalized (a : AudioAnalyzer) (frame_idx fps : ℕ)
    (hfps : 0 < fps) (hfit : a.sample_rate / fps ≤ a.n_fft) (hn : 4 ≤ a.n_fft) :
    ∃ l low mid high x y z,
      a.get_spectrum frame_idx fps = some l ∧
      low = npMean (l.take (l.length / 3)) ∧
      mid = npMean ((l.drop (l.length / 3)).take (2 * l.length / 3 - l.length / 3)) ∧
      high = npMean (l.drop (2 * l.length / 3)) ∧
      a.get_frequency_bands frame_idx fps = some (x, y, z) ∧
      (0 ≤ x ∧ x ≤ 1) ∧ (0 ≤ y ∧ y ≤ 1) ∧ (0 ≤ z ∧ z ≤ 1) ∧
      (1e-10 ≤ max low (max mid high) → max x (max y z) = 1) ∧
      (max low (max mid high) < 1e-10 → x < 1 ∧ y < 1 ∧ z < 1) ∧
      ((x, y, z) = (0, 0, 0) ↔ ∀ v ∈ l, v = 0) := by
  obtain ⟨l, hl, hlen, hpos⟩ := get_spectrum_spec a frame_idx fps hfit
  have hn0 : ¬ l.length = 0 := by omega
  have h3 : 3 ≤ l.length := by omega
  set lo := npMean (l.take (l.length / 3)) with hlo
  set mi := npMean ((l.drop (l.length / 3)).take (2 * l.length / 3 - l.length / 3)) with hmi
  set hi := npMean (l.drop (2 * l.length / 3)) with hhi
  set mv := max lo (max mi (max hi 1e-10)) with hmv
  have hlow : 0 ≤ lo := by
    rw [hlo]
    exact npMean_nonneg _ fun x hx => hpos x (List.mem_of_mem_take hx)
  have hmid : 0 ≤ mi := by
    rw [hmi]
    exact npMean_nonneg _ fun x hx =>
      hpos x (List.mem_of_mem_drop (List.mem_of_mem_take hx))
  have hhigh : 0 ≤ hi := by
    rw [hhi]
    exact npMean_nonneg _ fun x hx => hpos x (List.mem_of_mem_drop hx)
  obtain ⟨hx, hy, hz, hbig, hsmall, hxz, hyz, hzz⟩ :=
    normalize_bands lo mi hi mv hlow hmid hhigh hmv
  refine ⟨l, lo, mi, hi, lo / mv, mi / mv, hi / mv, hl, hlo, hmi, hhi, ?_, hx, hy, hz,
    hbig, hsmall, ?_, ?_⟩
  · simp only [AudioAnalyzer.get_frequency_bands, hl, if_neg hn0]
  · intro h0
    rw [Prod.mk.injEq, Prod.mk.injEq] at h0
    obtain ⟨hx0, hy0, hz0⟩ := h0
    have hlo0 : npMean (l.take (l.length / 3)) = 0 := by
      rw [← hlo]
      exact hxz.mp hx0
    have hmi0 : npMean ((l.drop (l.length / 3)).take (2 * l.length / 3 - l.length / 3)) = 0 := by
      rw [← hmi]
      exact hyz.mp hy0
    have hhi0 : npMean (l.drop (2 * l.length / 3)) = 0 := by
      rw [← hhi]
      exact hzz.mp hz0
    have hlowz : ∀ v ∈ l.take (l.length / 3), v = 0 :=
      all_zero_of_npMean_zero _ (fun v hv => hpos v (List.mem_of_mem_take hv))
        (by simp only [List.length_take]; omega) hlo0
    have hmidz : ∀ v ∈ (l.drop (l.length / 3)).take (2 * l.length / 3 - l.length / 3),
        v = 0 :=
      all_zero_of_npMean_zero _
        (fun v hv => hpos v (List.mem_of_mem_drop (List.mem_of_mem_take hv)))
        (by simp only [List.length_take, List.length_drop]; omega) hmi0
    have hhighz : ∀ v ∈ l.drop (2 * l.length / 3), v = 0 :=
      all_zero_of_npMean_zero _ (fun v hv => hpos v (List.mem_of_mem_drop hv))
        (by simp only [List.length_drop]; omega) hhi0
    intro v hv
    have hv' := (three_slice_decomp l (l.length / 3) (2 * l.length / 3) (by omega)) ▸ hv
    rcases List.mem_append.mp hv' with h | h
    · exact hlowz v h
    · rcases List.mem_append.mp h with h | h
      · exact hmidz v h
      · exact hhighz v h
  · intro hall
    have hlo0 : lo = 0 := by
      rw [hlo, npMean, List.sum_eq_zero fun v hv => hall v (List.mem_of_mem_take hv),
        zero_div]
    have hmi0 : mi = 0 := by
      rw [hmi, npMean, List.sum_eq_zero fun v hv =>
        hall v (List.mem_of_mem_drop (List.mem_of_mem_take hv)), zero_div]
    have hhi0 : hi = 0 := by
      rw [hhi, npMean, List.sum_eq_zero fun v hv => hall v (List.mem_of_mem_drop hv),
        zero_div]
    rw [hlo0, hmi0, hhi0]
    simp

/-- Witness for the amended C3: no buffer loaded, `sample_rate = 4`,
`fps = 1`, `n_fft = 4`; the all-zero spectrum yields bands `(0, 0, 0)`. -/
theorem frequency_bands_normalized_witness :
    0 < 1 ∧
    (AudioAnalyzer.mk 4 512 4 none).sample_rate / 1 ≤ (AudioAnalyzer.mk 4 512 4 none).n_fft ∧
    4 ≤ (AudioAnalyzer.mk 4 512 4 none).n_fft ∧
    (∃ l low mid high x y z,
      (AudioAnalyzer.mk 4 512 4 none).get_spectrum 0 1 = some l ∧
      low = npMean (l.take (l.length / 3)) ∧
      mid = npMean ((l.drop (l.length / 3)).take (2 * l.length / 3 - l.length / 3)) ∧
      high = npMean (l.drop (2 * l.length / 3)) ∧
      (AudioAnalyzer.mk 4 512 4 none).get_frequency_bands 0 1 = some (x, y, z) ∧
      (0 ≤ x ∧ x ≤ 1) ∧ (0 ≤ y ∧ y ≤ 1) ∧ (0 ≤ z ∧ z ≤ 1) ∧
      (1e-10 ≤ max low (max mid high) → max x (max y z) = 1) ∧
      (max low (max mid high) < 1e-10 → x < 1 ∧ y < 1 ∧ z < 1) ∧
      ((x, y, z) = (0, 0, 0) ↔ ∀ v ∈ l, v = 0)) :=
  ⟨Nat.one_pos, by decide, by decide,
    frequency_bands_normalized (AudioAnalyzer.mk 4 512 4 none) 0 1 Nat.one_pos
      (by decide) (by decide)⟩

/-- The C3 counterexample analyzer: a two-sample buffer `[0, 1e-12]`,
`sample_rate = 4`, `n_fft = 4`, queried at `fps = 1`. -/
def analyzerC3 : AudioAnalyzer :=
  { sample_rate := 4, hop_length := 512, n_fft := 4,
    audio := some [0, 1 / 1000000000000] }

/-- `np.hanning 4 = [0, 3/4, 3/4, 0]`. -/
lemma hanning_four : hanning 4 = [0, 3 / 4, 3 / 4, 0] := by
  have h1 : Real.cos (2 * Real.pi / 3) = -(1 / 2) := by
    have harg : 2 * Real.pi / 3 = Real.pi - Real.pi / 3 := by ring
    rw [harg, Real.cos_pi_sub, Real.cos_pi_div_three]
  have h2 : Real.cos (2 * Real.pi * 2 / 3) = -(1 / 2) := by
    have harg : 2 * Real.pi * 2 / 3 = 2 * Real.pi - (Real.pi - Real.pi / 3) := by ring
    rw [harg, Real.cos_two_pi_sub, Real.cos_pi_sub, Real.cos_pi_div_three]
  have h3 : Real.cos (2 * Real.pi * 3 / 3) = 1 := by
    have harg : 2 * Real.pi * 3 / 3 = 2 * Real.pi := by ring
    rw [harg, Real.cos_two_pi]
  simp only [hanning, show (4 : ℕ) = 3 + 1 by rfl, List.range_succ, List.range_zero,
    List.map_append, List.map_cons, List.map_nil, List.nil_append]
  norm_num [h1, h2, h3, Real.cos_zero]

/-- The magnitude spectrum of a 4-sample signal with one nonzero entry
`c ≥ 0` in slot 1 is constant `c`: every DFT bin is `c·e^{-iθ}`. -/
lemma rfftMag_single_entry (c : ℝ) (hc : 0 ≤ c) :
    rfftMag [0, c, 0, 0] = [c, c, c] := by
  have habs : ∀ k : ℕ,
      Complex.abs (∑ j ∈ Finset.range 4,
        (([0, c, 0, 0].getD j 0 : ℝ) : ℂ) *
          Complex.exp (((-2 * Real.pi * (j : ℝ) * (k : ℝ) / (((4 : ℕ) : ℝ)) : ℝ) : ℂ) *
            Complex.I)) = c := by
    intro k
    rw [show (4 : ℕ) = 3 + 1 by rfl, Finset.sum_range_succ, Finset.sum_range_succ,
      Finset.sum_range_succ, Finset.sum_range_one]
    have g0 : (([0, c, 0, 0] : List ℝ).getD 0 0) = 0 := rfl
    have g1 : (([0, c, 0, 0] : List ℝ).getD 1 0) = c := rfl
    have g2 : (([0, c, 0, 0] : List ℝ).getD 2 0) = 0 := rfl
    have g3 : (([0, c, 0, 0] : List ℝ).getD 3 0) = 0 := rfl
    rw [g0, g1, g2, g3]
    simp only [Complex.ofReal_zero, zero_mul, zero_add, add_zero]
    rw [map_mul, Complex.abs_ofReal, Complex.abs_exp_ofReal_mul_I, mul_one,
      abs_of_nonneg hc]
  have hlen : ([0, c, 0, 0] : List ℝ).length = 4 := rfl
  simp only [rfftMag, hlen]
  rw [show (4 / 2 + 1 : ℕ) = 3 from rfl, List.range_succ, List.range_succ,
    List.range_succ, List.range_zero]
  simp only [List.map_append, List.map_cons, List.map_nil, List.nil_append]
  rw [habs 0, habs 1, habs 2]
  rfl

/-- The spectrum of the C3 analyzer's frame 0: padding `[0, 1e-12]` to
four samples and windowing by `[0, 3/4, 3/4, 0]` leaves the single entry
`3/4 · 1e-12`, so every magnitude bin is `3/4000000000000`. -/
lemma spectrumC3 :
    analyzerC3.get_spectrum 0 1 =
      some [3 / 4000000000000, 3 / 4000000000000, 3 / 4000000000000] := by
  simp only [AudioAnalyzer.get_spectrum, analyzerC3, startSample]
  norm_num [List.replicate, hanning_four]
  rw [rfftMag_single_entry _ (by norm_num)]

/-- **C3 counterexample.** For the loaded two-sample buffer
`[0, 1e-12]` (`sample_rate = 4`, `n_fft = 4`, `fps = 1`) every raw band
mean is `3/4·1e-12`, strictly between `0` and the `1e-10` floor, so
`frequencyBands` returns `(3/400, 3/400, 3/400)` — a triple with
`max(low, mid, high) = 3/400 ≠ 1.0` that is not `(0, 0, 0)` either.  The
actual code hits the same values (float rounding keeps them far from
both `1` and `0`). -/
theorem frequency_bands_claim_counterexample :
    analyzerC3.audio = some [0, 1 / 1000000000000] ∧
    analyzerC3.get_frequency_bands 0 1 = some (3 / 400, 3 / 400, 3 / 400) ∧
    ¬ ((max (3 / 400 : ℝ) (max (3 / 400) (3 / 400)) = 1) ∨
       ((3 / 400 : ℝ), (3 / 400 : ℝ), (3 / 400 : ℝ)) = ((0 : ℝ), (0 : ℝ), (0 : ℝ))) := by
  refine ⟨rfl, ?_, by norm_num⟩
  have h1 : max (3 / 4000000000000 : ℝ) 1e-10 = 1e-10 := max_eq_right (by norm_num)
  simp only [AudioAnalyzer.get_frequency_bands, spectrumC3]
  norm_num [npMean, h1]

/-! ## Claim C8: geometric circle radii, stroke widths, hexagon -/

/-- Shared shape lemma: with non-negative band values and
`maxRadius ≥ 34` (so every circle radius exceeds the `> 10` draw guard),
one geometric frame is exactly the background, the three circles, the
rotating hexagon, and the radiating lines. -/
lemma render_geometric_eq (cfg : VisualizerConfig) (frame_idx : ℕ) (d : AudioData)
    (cx cy maxR r1 r2 r3 R : ℝ) (w : ℤ)
    (hcx : cx = ((cfg.width / 2 : ℕ) : ℝ)) (hcy : cy = ((cfg.height / 2 : ℕ) : ℝ))
    (hmaxR : maxR = ((min cfg.width cfg.height / 3 : ℕ) : ℝ))
    (hr1 : r1 = maxR * (0.3 + 0.4 * d.frequency_bands.1))
    (hr2 : r2 = maxR * (0.4 + 0.3 * d.frequency_bands.2.1))
    (hr3 : r3 = maxR * (0.5 + 0.3 * d.frequency_bands.2.2))
    (hw : w = max 1 (pyIntR (d.rms * 8)))
    (hRad : R = 50 + d.rms * 100)
    (hlow : 0 ≤ d.frequency_bands.1) (hmid : 0 ≤ d.frequency_bands.2.1)
    (hhigh : 0 ≤ d.frequency_bands.2.2)
    (hbound : 34 ≤ min cfg.width cfg.height / 3) :
    render_geometric cfg frame_idx d =
      DrawCmd.rect 0 0 (cfg.width : ℝ) (cfg.height : ℝ)
          (get_theme_colors cfg.theme).background ::
      DrawCmd.ellipseOutline (cx - r1) (cy - r1) (cx + r1) (cy + r1)
          (get_color (get_theme_colors cfg.theme) .low d.frequency_bands.1) w ::
      DrawCmd.ellipseOutline (cx - r2) (cy - r2) (cx + r2) (cy + r2)
          (get_color (get_theme_colors cfg.theme) .mid d.frequency_bands.2.1) w ::
      DrawCmd.ellipseOutline (cx - r3) (cy - r3) (cx + r3) (cy + r3)
          (get_color (get_theme_colors cfg.theme) .high d.frequency_bands.2.2) w ::
      DrawCmd.polygonOutline
          ((List.range 6).map fun i : ℕ =>
            (cx + R * Real.cos (2 * Real.pi * (i : ℝ) / ((6 : ℕ) : ℝ) +
                (frame_idx : ℝ) * 0.02),
             cy + R * Real.sin (2 * Real.pi * (i : ℝ) / ((6 : ℕ) : ℝ) +
                (frame_idx : ℝ) * 0.02)))
          (get_color (get_theme_colors cfg.theme) .mid d.frequency_bands.2.1) 3 ::
      draw_radiating_lines cfg frame_idx d.frequency_bands.2.2 d.rms := by
  subst hcx hcy hmaxR hr1 hr2 hr3 hw hRad
  have h34 : (34 : ℝ) ≤ ((min cfg.width cfg.height / 3 : ℕ) : ℝ) := by
    exact_mod_cast hbound
  have hc1 : (10 : ℝ) <
      ((min cfg.width cfg.height / 3 : ℕ) : ℝ) * (0.3 + 0.4 * d.frequency_bands.1) := by
    nlinarith
  have hc2 : (10 : ℝ) <
      ((min cfg.width cfg.height / 3 : ℕ) : ℝ) * (0.4 + 0.3 * d.frequency_bands.2.1) := by
    nlinarith
  have hc3 : (10 : ℝ) <
      ((min cfg.width cfg.height / 3 : ℕ) : ℝ) * (0.5 + 0.3 * d.frequency_bands.2.2) := by
    nlinarith
  simp only [render_geometric, draw_circles, draw_polygon, List.filterMap_cons,
    List.filterMap_nil, if_pos hc1, if_pos hc2, if_pos hc3, List.cons_append,
    List.nil_append]

/-- **C8 (amended).** For every feature snapshot with non-negative band
values, on any screen with `maxRadius ≥ 34`, the three concentric
circles are drawn with radii `maxRadius*(0.3+0.4*low)`,
`maxRadius*(0.4+0.3*mid)`, `maxRadius*(0.5+0.3*high)`, each with outline
stroke width `max(1, int(rms*8))` — truncation, not rounding — and the
rotating hexagon has radius `50 + rms*100` and rotation angle
`frameIndex*0.02` radians. -/
theorem geometric_circle_hexagon_shapes (cfg : VisualizerConfig) (frame_idx : ℕ)
    (d : AudioData) (cx cy maxR r1 r2 r3 R : ℝ) (w : ℤ)
    (hcx : cx = ((cfg.width / 2 : ℕ) : ℝ)) (hcy : cy = ((cfg.height / 2 : ℕ) : ℝ))
    (hmaxR : maxR = ((min cfg.width cfg.height / 3 : ℕ) : ℝ))
    (hr1 : r1 = maxR * (0.3 + 0.4 * d.frequency_bands.1))
    (hr2 : r2 = maxR * (0.4 + 0.3 * d.frequency_bands.2.1))
    (hr3 : r3 = maxR * (0.5 + 0.3 * d.frequency_bands.2.2))
    (hw : w = max 1 (pyIntR (d.rms * 8)))
    (hRad : R = 50 + d.rms * 100)
    (hlow : 0 ≤ d.frequency_bands.1) (hmid : 0 ≤ d.frequency_bands.2.1)
    (hhigh : 0 ≤ d.frequency_bands.2.2)
    (hbound : 34 ≤ min cfg.width cfg.height / 3) :
    render_geometric cfg frame_idx d =
      DrawCmd.rect 0 0 (cfg.width : ℝ) (cfg.height : ℝ)
          (get_theme_colors cfg.theme).background ::
      DrawCmd.ellipseOutline (cx - r1) (cy - r1) (cx + r1) (cy + r1)
          (get_color (get_theme_colors cfg.theme) .low d.frequency_bands.1) w ::
      DrawCmd.ellipseOutline (cx - r2) (cy - r2) (cx + r2) (cy + r2)
          (get_color (get_theme_colors cfg.theme) .mid d.frequency_bands.2.1) w ::
      DrawCmd.ellipseOutline (cx - r3) (cy - r3) (cx + r3) (cy + r3)
          (get_color (get_theme_colors cfg.theme) .high d.frequency_bands.2.2) w ::
      DrawCmd.polygonOutline
          ((List.range 6).map fun i : ℕ =>
            (cx + R * Real.cos (2 * Real.pi * (i : ℝ) / ((6 : ℕ) : ℝ) +
                (frame_idx : ℝ) * 0.02),
             cy + R * Real.sin (2 * Real.pi * (i : ℝ) / ((6 : ℕ) : ℝ) +
                (frame_idx : ℝ) * 0.02)))
          (get_color (get_theme_colors cfg.theme) .mid d.frequency_bands.2.1) 3 ::
      draw_radiating_lines cfg frame_idx d.frequency_bands.2.2 d.rms :=
  render_geometric_eq cfg frame_idx d cx cy maxR r1 r2 r3 R w hcx hcy hmaxR hr1 hr2 hr3
    hw hRad hlow hmid hhigh hbound

/-- Witness for the amended C8 at the default 1920×1080 configuration
and a silent snapshot: the first circle is drawn at radius 108 with
stroke width 1. -/
theorem geometric_circle_hexagon_shapes_witness :
    34 ≤ min (VisualizerConfig.width {}) (VisualizerConfig.height {}) / 3 ∧
    (render_geometric {} 0 (AudioData.mk 0 [] [] (0, 0, 0))).get? 1 =
      some (DrawCmd.ellipseOutline (960 - 108) (540 - 108) (960 + 108) (540 + 108)
        (get_color (get_theme_colors .cosmic) .low 0) 1) := by
  have hbound : 34 ≤ min (VisualizerConfig.width {}) (VisualizerConfig.height {}) / 3 := by
    decide
  refine ⟨hbound, ?_⟩
  rw [geometric_circle_hexagon_shapes {} 0 (AudioData.mk 0 [] [] (0, 0, 0))
    960 540 360 108 144 180 50 1
    (by norm_num) (by norm_num) (by norm_num) (by norm_num) (by norm_num) (by norm_num)
    (by norm_num [pyIntR]) (by norm_num) le_rfl le_rfl le_rfl hbound]
  rfl

/-- **C8 counterexample.** At `rms = 0.95` the code draws the circles
with stroke width `max(1, int(0.95*8)) = 7`, but the claim's
`max(1, round(rms*8))` is `8`: truncation and rounding disagree. -/
theorem geometric_width_claim_counterexample :
    ((render_geometric {} 0 (AudioData.mk 0.95 [] [] (0, 0, 0))).get? 1).map cmdWidth =
      some 7 ∧
    max 1 (round ((0.95 : ℝ) * 8)) = (8 : ℤ) ∧ (7 : ℤ) ≠ 8 := by
  refine ⟨?_, ?_, by norm_num⟩
  · have h7 : pyIntR ((0.95 : ℝ) * 8) = 7 := by
      rw [pyIntR, if_neg (by norm_num : ¬((0.95 : ℝ) * 8 < 0))]
      norm_num [Int.floor_eq_iff]
    rw [render_geometric_eq {} 0 (AudioData.mk 0.95 [] [] (0, 0, 0))
      960 540 360 108 144 180 145 7
      (by norm_num) (by norm_num) (by norm_num) (by norm_num) (by norm_num) (by norm_num)
      (by rw [h7]; rfl) (by norm_num) le_rfl le_rfl le_rfl (by decide)]
    rfl
  · rw [round_eq]
    norm_num [Int.floor_eq_iff]

/-! ## Claim C9: end-to-end silent run -/

lemma zipWith_zero_mul (n : ℕ) (l : List ℝ) :
    List.zipWith (fun s w => s * w) (List.replicate n (0 : ℝ)) l =
      List.replicate (min n l.length) 0 := by
  induction l generalizing n with
  | nil => simp
  | cons b bs ih =>
    cases n with
    | zero => simp
    | succ m =>
      simp only [List.replicate_succ, List.zipWith_cons_cons, ih, zero_mul,
        List.length_cons, Nat.succ_min_succ]

lemma getD_replicate_zero (n j : ℕ) : (List.replicate n (0 : ℝ)).getD j 0 = 0 := by
  rcases hj : (List.replicate n (0 : ℝ)).get? j with _ | a
  · simp [List.getD_eq_get?, hj]
  · have ha := List.eq_of_mem_replicate (List.get?_mem hj)
    simp [List.getD_eq_get?, hj, ha]

lemma rfftMag_all_zero (n : ℕ) :
    rfftMag (List.replicate n (0 : ℝ)) = List.replicate (n / 2 + 1) 0 := by
  simp only [rfftMag, List.length_replicate]
  have hcong : ∀ k ∈ List.range (n / 2 + 1),
      Complex.abs (∑ j ∈ Finset.range n,
        (((List.replicate n (0 : ℝ)).getD j 0 : ℝ) : ℂ) *
          Complex.exp (((-2 * Real.pi * (j : ℝ) * (k : ℝ) / (((n : ℕ) : ℝ)) : ℝ) : ℂ) *
            Complex.I)) = (0 : ℝ) := by
    intro k _
    have hsum : (∑ j ∈ Finset.range n,
        (((List.replicate n (0 : ℝ)).getD j 0 : ℝ) : ℂ) *
          Complex.exp (((-2 * Real.pi * (j : ℝ) * (k : ℝ) / (((n : ℕ) : ℝ)) : ℝ) : ℂ) *
            Complex.I)) = 0 := by
      refine Finset.sum_eq_zero fun j _ => ?_
      rw [getD_replicate_zero, Complex.ofReal_zero, zero_mul]
    rw [hsum, map_zero]
  rw [List.map_congr_left hcong, List.map_const', List.length_range]

/-- On an all-zero buffer (with the fps bound that keeps windowing from
raising) `get_spectrum` is the all-zero spectrum, whether or not the
frame is past the end. -/
lemma get_spectrum_zero_buffer (a : AudioAnalyzer) (L frame_idx fps : ℕ)
    (ha : a.audio = some (List.replicate L (0 : ℚ)))
    (hfit : a.sample_rate / fps ≤ a.n_fft) :
    a.get_spectrum frame_idx fps = some (List.replicate (a.n_fft / 2 + 1) 0) := by
  by_cases hs : (List.replicate L (0 : ℚ)).length ≤ startSample a frame_idx fps
  · simp only [AudioAnalyzer.get_spectrum, ha]
    rw [if_pos hs]
  · simp only [AudioAnalyzer.get_spectrum, ha]
    rw [if_neg hs]
    rw [List.drop_replicate, List.take_replicate]
    have hm : min (min (startSample a frame_idx fps + a.sample_rate / fps)
        (List.replicate L (0 : ℚ)).length - startSample a frame_idx fps)
        (L - startSample a frame_idx fps) ≤ a.n_fft := by
      simp only [List.length_replicate] at hs ⊢
      omega
    have hpad : (if (List.replicate (min (min (startSample a frame_idx fps +
          a.sample_rate / fps) (List.replicate L (0 : ℚ)).length -
            startSample a frame_idx fps) (L - startSample a frame_idx fps)) (0 : ℚ)).length <
          a.n_fft then
        List.replicate (min (min (startSample a frame_idx fps + a.sample_rate / fps)
            (List.replicate L (0 : ℚ)).length - startSample a frame_idx fps)
            (L - startSample a frame_idx fps)) (0 : ℚ) ++
          List.replicate (a.n_fft - (List.replicate (min (min (startSample a frame_idx fps +
            a.sample_rate / fps) (List.replicate L (0 : ℚ)).length -
              startSample a frame_idx fps) (L - startSample a frame_idx fps)) (0 : ℚ)).length) 0
        else
          List.replicate (min (min (startSample a frame_idx fps + a.sample_rate / fps)
            (List.replicate L (0 : ℚ)).length - startSample a frame_idx fps)
            (L - startSample a frame_idx fps)) (0 : ℚ)) =
        List.replicate a.n_fft (0 : ℚ) := by
      simp only [List.length_replicate]
      split
      · rw [← List.replicate_add]
        congr 1
        omega
      · congr 1
        omega
    rw [hpad]
    rw [List.map_replicate, Rat.cast_zero, zipWith_zero_mul, hanning_length,
      List.length_replicate, min_self, rfftMag_all_zero]
    simp

/-- On an all-zero buffer `get_rms_energy` is 0. -/
lemma get_rms_zero_buffer (a : AudioAnalyzer) (L frame_idx fps : ℕ)
    (ha : a.audio = some (List.replicate L (0 : ℚ))) :
    a.get_rms_energy frame_idx fps = 0 := by
  by_cases hs : (List.replicate L (0 : ℚ)).length ≤ startSample a frame_idx fps
  · simp only [AudioAnalyzer.get_rms_energy, ha]
    rw [if_pos hs]
  · simp only [AudioAnalyzer.get_rms_energy, ha]
    rw [if_neg hs]
    rw [List.drop_replicate, List.take_replicate, List.map_replicate]
    norm_num [List.sum_replicate, Real.sqrt_zero]

/-- On an all-zero buffer `get_waveform` is all zeros. -/
lemma get_waveform_zero_buffer (a : AudioAnalyzer) (L frame_idx fps num_samples : ℕ)
    (ha : a.audio = some (List.replicate L (0 : ℚ))) :
    a.get_waveform frame_idx fps num_samples = List.replicate num_samples 0 := by
  by_cases hs : (List.replicate L (0 : ℚ)).length ≤ startSample a frame_idx fps
  · simp only [AudioAnalyzer.get_waveform, ha]
    rw [if_pos hs]
  · simp only [AudioAnalyzer.get_waveform, ha]
    rw [if_neg hs]
    rw [List.drop_replicate, List.take_replicate]
    simp only [List.length_replicate]
    split
    · rw [← List.replicate_add]
      congr 1
      simp only [List.length_replicate] at hs
      omega
    · rename_i hge
      congr 1
      simp only [List.length_replicate] at hs hge ⊢
      omega

/-- Any all-zero spectrum normalizes to the `(0, 0, 0)` band triple. -/
lemma bands_of_zero_spectrum (a : AudioAnalyzer) (frame_idx fps K : ℕ) (hK : K ≠ 0)
    (hsp : a.get_spectrum frame_idx fps = some (List.replicate K (0 : ℝ))) :
    a.get_frequency_bands frame_idx fps = some (0, 0, 0) := by
  have hKlen : ¬ (List.replicate K (0 : ℝ)).length = 0 := by
    simpa using hK
  simp only [AudioAnalyzer.get_frequency_bands, hsp, if_neg hKlen]
  simp [List.take_replicate, List.drop_replicate, npMean_replicate_zero]

/-- The 1-second silent buffer of the C9 scenario: 22050 zero samples at
the default extraction parameters. -/
def silentAnalyzer : AudioAnalyzer :=
  { audio := some (List.replicate 22050 0) }

/-- The feature snapshot every frame of the silent run receives. -/
noncomputable def silentData : AudioData :=
  { rms := 0
    spectrum := List.replicate 1025 0
    waveform := List.replicate 1024 0
    frequency_bands := (0, 0, 0) }

/-- Every frame of the silent run gets the all-zero snapshot (no frame
bound needed: past-end frames degrade to the same zeros). -/
lemma silent_audio_data (frame_idx : ℕ) :
    get_audio_data silentAnalyzer frame_idx 30 = some silentData := by
  have hsp := get_spectrum_zero_buffer silentAnalyzer 22050 frame_idx 30 rfl (by decide)
  have hfb := bands_of_zero_spectrum silentAnalyzer frame_idx 30 1025 (by decide)
    (by rw [hsp]; rfl)
  have hrms := get_rms_zero_buffer silentAnalyzer 22050 frame_idx 30 rfl
  have hwf := get_waveform_zero_buffer silentAnalyzer 22050 frame_idx 30 1024 rfl
  rw [get_audio_data, hsp, hfb, hrms, hwf]
  rfl

lemma get_color_cosmic_low_zero :
    get_color (get_theme_colors ThemeName.cosmic) Band.low 0 = (76, 30, 15) := by
  simp only [get_color, get_theme_colors, pyIntR]
  norm_num [Int.floor_eq_iff]

lemma get_color_cosmic_mid_zero :
    get_color (get_theme_colors ThemeName.cosmic) Band.mid 0 = (45, 15, 60) := by
  simp only [get_color, get_theme_colors, pyIntR]
  norm_num [Int.floor_eq_iff]

lemma get_color_cosmic_high_zero :
    get_color (get_theme_colors ThemeName.cosmic) Band.high 0 = (15, 45, 76) := by
  simp only [get_color, get_theme_colors, pyIntR]
  norm_num [Int.floor_eq_iff]

/-- The frame the geometric style draws for every silent snapshot at the
default 1920×1080 configuration: background, the three circles at their
minimum radii (108, 144, 180 = 0.3/0.4/0.5 of `maxRadius = 360`) with
stroke width 1, the hexagon of radius 50 rotated by `frameIdx*0.02`, and
the twelve radiating lines at their silent extents. -/
noncomputable def silentGeoFrame (frame_idx : ℕ) : Frame :=
  DrawCmd.rect 0 0 1920 1080 (10, 10, 30) ::
  DrawCmd.ellipseOutline (960 - 108) (540 - 108) (960 + 108) (540 + 108) (76, 30, 15) 1 ::
  DrawCmd.ellipseOutline (960 - 144) (540 - 144) (960 + 144) (540 + 144) (45, 15, 60) 1 ::
  DrawCmd.ellipseOutline (960 - 180) (540 - 180) (960 + 180) (540 + 180) (15, 45, 76) 1 ::
  DrawCmd.polygonOutline
    ((List.range 6).map fun i : ℕ =>
      (960 + 50 * Real.cos (2 * Real.pi * (i : ℝ) / ((6 : ℕ) : ℝ) + (frame_idx : ℝ) * 0.02),
       540 + 50 * Real.sin (2 * Real.pi * (i : ℝ) / ((6 : ℕ) : ℝ) + (frame_idx : ℝ) * 0.02)))
    (45, 15, 60) 3 ::
  draw_radiating_lines {} frame_idx 0 0

lemma silent_render (frame_idx : ℕ) :
    render_geometric {} frame_idx silentData = silentGeoFrame frame_idx := by
  rw [render_geometric_eq {} frame_idx silentData 960 540 360 108 144 180 50 1
    (by norm_num) (by norm_num)
    (show (360 : ℝ) = ((min 1920 1080 / 3 : ℕ) : ℝ) by norm_num)
    (by norm_num [silentData]) (by norm_num [silentData]) (by norm_num [silentData])
    (by norm_num [silentData, pyIntR]) (by norm_num [silentData])
    le_rfl le_rfl le_rfl (by decide)]
  rw [show (get_theme_colors ({} : VisualizerConfig).theme).background = (10, 10, 30)
      from rfl,
    show get_color (get_theme_colors ({} : VisualizerConfig).theme) Band.low
        silentData.frequency_bands.1 = (76, 30, 15) from get_color_cosmic_low_zero,
    show get_color (get_theme_colors ({} : VisualizerConfig).theme) Band.mid
        silentData.frequency_bands.2.1 = (45, 15, 60) from get_color_cosmic_mid_zero,
    show get_color (get_theme_colors ({} : VisualizerConfig).theme) Band.high
        silentData.frequency_bands.2.2 = (15, 45, 76) from get_color_cosmic_high_zero,
    show ((({} : VisualizerConfig).width : ℕ) : ℝ) = 1920 by norm_num,
    show ((({} : VisualizerConfig).height : ℕ) : ℝ) = 1080 by norm_num]
  rfl

lemma generate_frames_geo_aux_succ (an : AudioAnalyzer) (cfg : VisualizerConfig)
    (s : GeoState) (fuel : ℕ) (d : AudioData)
    (hd : get_audio_data an s.frame_idx cfg.fps = some d) :
    generate_frames_geo_aux an cfg s (fuel + 1) =
      match generate_frames_geo_aux an cfg (geo_render_frame cfg d s).2 fuel with
      | none => none
      | some rest => some ((geo_render_frame cfg d s).1 :: rest) := by
  rw [generate_frames_geo_aux, hd]

lemma generate_frames_geo_aux_silent (n : ℕ) : ∀ s : GeoState,
    generate_frames_geo_aux silentAnalyzer {} s n =
      some ((List.range' s.frame_idx n).map silentGeoFrame) := by
  induction n with
  | zero => intro s; rfl
  | succ m ih =>
    intro s
    rw [generate_frames_geo_aux_succ silentAnalyzer {} s m silentData
      (silent_audio_data s.frame_idx)]
    simp only [geo_render_frame]
    rw [ih ⟨s.frame_idx + 1⟩]
    rw [show List.range' s.frame_idx (m + 1) = s.frame_idx :: List.range' (s.frame_idx + 1) m
      from rfl]
    rw [List.map_cons, ← silent_render]

/-- The full silent run: exactly the 30 frames `silentGeoFrame 0 ..
silentGeoFrame 29`. -/
lemma silent_run_eq :
    generate_frames_geo silentAnalyzer {} = some ((List.range 30).map silentGeoFrame) := by
  have hdur : silentAnalyzer.duration = 1 := by
    norm_num [AudioAnalyzer.duration, silentAnalyzer]
  have hnum : (pyIntQ (silentAnalyzer.duration * ((({} : VisualizerConfig).fps : ℕ) : ℚ))).toNat
      = 30 := by
    rw [hdur]
    norm_num [pyIntQ]
    rfl
  rw [generate_frames_geo, hnum, generate_frames_geo_aux_silent 30 {}]
  rw [List.range_eq_range']

/-- **C9 (amended).** The 1-second silent buffer (`sampleRate = 22050`,
all zeros) at `fps = 30` produces exactly 30 frames, and every frame is
the fixed, input-independent `silentGeoFrame i`: the background plus the
three circles at their minimum radii (`0.3/0.4/0.5 · maxRadius`, stroke
width 1) — together with the always-drawn hexagon (radius 50, rotation
`i*0.02`) and the twelve radiating lines, which the claim's "only the
background circles" overlooks.  Equality with an explicit sequence makes
the run deterministic across runs. -/
theorem silent_end_to_end :
    generate_frames_geo silentAnalyzer {} = some ((List.range 30).map silentGeoFrame) ∧
    ((List.range 30).map silentGeoFrame).length = 30 :=
  ⟨silent_run_eq, by simp⟩

/-- **C9 counterexample.** Frame 0 of the silent run does not show only
the background circles: after the background (kind 0) and the three
circle outlines (kind 1) come a polygon — the rotating hexagon, kind 3 —
and twelve lines (kind 4). -/
theorem silent_only_circles_counterexample :
    (((generate_frames_geo silentAnalyzer {}).getD []).getD 0 []).map cmdKind =
      0 :: 1 :: 1 :: 1 :: 3 :: List.replicate 12 4 := by
  rw [silent_run_eq]
  rw [List.range_eq_range',
    show List.range' 0 30 = 0 :: List.range' 1 29 from rfl, List.map_cons]
  simp only [Option.getD_some, List.getD_cons_zero]
  simp only [silentGeoFrame, draw_radiating_lines, List.map_cons, List.map_map]
  rfl

/-! ## Claim C6: `frameIndex` increments by exactly 1 per frame -/

lemma geo_fold_frame_idx (cfg : VisualizerConfig) (ds : List AudioData) :
    ∀ s : GeoState,
      (ds.foldl (fun s d => (geo_render_frame cfg d s).2) s).frame_idx =
        s.frame_idx + ds.length := by
  induction ds with
  | nil => intro s; simp
  | cons d rest ih =>
    intro s
    rw [List.foldl_cons, ih]
    simp only [geo_render_frame, List.length_cons]
    omega

lemma particle_fold_frame_idx (cfg : VisualizerConfig)
    (ds : List (AudioData × (ℕ → ℝ) × (ℕ → ℤ))) :
    ∀ s : PState,
      (ds.foldl (fun s d => (particle_render_frame cfg d.1 d.2.1 d.2.2 s).2) s).frame_idx =
        s.frame_idx + ds.length := by
  induction ds with
  | nil => intro s; simp
  | cons d rest ih =>
    intro s
    rw [List.foldl_cons, ih]
    simp only [particle_render_frame, List.length_cons]
    omega

lemma abstract_fold_frame_idx (cfg : VisualizerConfig) (ds : List AudioData) :
    ∀ s : AState,
      (ds.foldl (fun s d => (abstract_render_frame cfg d s).2) s).frame_idx =
        s.frame_idx + ds.length := by
  induction ds with
  | nil => intro s; simp
  | cons d rest ih =>
    intro s
    rw [List.foldl_cons, ih]
    simp only [abstract_render_frame, List.length_cons]
    omega

/-- **C6.** For each of the three styles, one `render_frame` call
increments `frame_idx` by exactly 1, and over any run the counter equals
the number of rendered frames — it never decreases or resets. -/
theorem frame_idx_increments (cfg : VisualizerConfig) :
    (∀ (d : AudioData) (s : GeoState),
      ((geo_render_frame cfg d s).2).frame_idx = s.frame_idx + 1) ∧
    (∀ (d : AudioData) (randF : ℕ → ℝ) (randI : ℕ → ℤ) (s : PState),
      ((particle_render_frame cfg d randF randI s).2).frame_idx = s.frame_idx + 1) ∧
    (∀ (d : AudioData) (s : AState),
      ((abstract_render_frame cfg d s).2).frame_idx = s.frame_idx + 1) ∧
    (∀ ds : List AudioData, (geo_run cfg ds).frame_idx = ds.length) ∧
    (∀ ds : List (AudioData × (ℕ → ℝ) × (ℕ → ℤ)),
      (particle_run cfg ds).frame_idx = ds.length) ∧
    (∀ ds : List AudioData, (abstract_run cfg ds).frame_idx = ds.length) := by
  refine ⟨fun d s => rfl, fun d rF rI s => rfl, fun d s => rfl, ?_, ?_, ?_⟩
  · intro ds; rw [geo_run, geo_fold_frame_idx]; simp
  · intro ds; rw [particle_run, particle_fold_frame_idx]; simp
  · intro ds; rw [abstract_run, abstract_fold_frame_idx]; simp

end Muviz
